import Mathlib

/- Verification development for the bistatic eigenverb reverberation engine
   declared in src/waveq3d/eigenverb_bistatic.h and the attenuation models
   exercised by src/ocean/test/attenuation_test.cc.

   The header declares the collision-notification interface
   (notifyUpperCollision / notifyLowerCollision, each returning bool, with the
   origin ID parameter defaulting to 999), the four store partitions
   (_source_surface, _receiver_surface, _source_bottom, _receiver_bottom) and a
   void compute_reverberation() that the header documents as a stub.  The
   method bodies and the attenuation-model implementations are not part of the
   sources verified here, so they are modelled from the specification; the
   declarations themselves are modelled from the header.  Real-valued
   quantities (C++ doubles) are embedded as rationals. -/

/-- Modelled from the source header: notifyUpperCollision reacts to a ray
colliding from below the boundary (the sea surface) and notifyLowerCollision
to a ray colliding from above the boundary (the sea floor).  The side records
which of the two entry points was invoked. -/
inductive collision_side where
  | upper
  | lower
  deriving DecidableEq

/-- Modelled from the spec: the eigenverb record (its definition is not under
the verified sources; the header stores `vector< eigenverb >` partitions).
Fields follow section 3 of the spec: origin identity, D/E and AZ indices,
impact time offset, grazing angle, sound speed, frequency grid, per-frequency
one-way transmission loss (kept in the linear power domain), impact position,
impact surface normal direction, and the two beam-spread sigmas produced by
the spreading model. -/
structure eigenverb where
  ID : Int
  de : Nat
  az : Nat
  time : ℚ
  grazing : ℚ
  speed : ℚ
  frequencies : List ℚ
  loss : List ℚ
  position : ℚ × ℚ × ℚ
  ndirection : ℚ × ℚ × ℚ
  sigma_time : ℚ
  sigma_range : ℚ
  deriving DecidableEq

/-- One collision notification: the argument tuple of a single
notifyUpperCollision or notifyLowerCollision call, as declared in the header,
together with the side implied by which method was called. -/
structure collision where
  side : collision_side
  de : Nat
  az : Nat
  time : ℚ
  grazing : ℚ
  speed : ℚ
  frequencies : List ℚ
  position : ℚ × ℚ × ℚ
  ndirection : ℚ × ℚ × ℚ
  ID : Int
  deriving DecidableEq

/-- Modelled from the spec: the configuration surface consumed at engine
construction (section 6): the IDs that tag source and receiver rays, the
time-bin layout of the output curve, the frequency grid, and the pluggable
attenuation, spreading and boundary-scattering collaborators.  The
attenuation collaborator maps a frequency grid and a path length to a loss
vector; the spreading collaborator maps grazing angle and the (de, az)
indices to the two sigmas; scattering maps the two grazing angles and a
frequency to a scattering strength. -/
structure engine_config where
  sourceID : Int
  receiverID : Int
  num_bins : Nat
  bin_width : ℚ
  frequencies : List ℚ
  atten : List ℚ → ℚ → List ℚ
  spreading : ℚ → Nat → Nat → ℚ × ℚ
  scattering : ℚ → ℚ → ℚ → ℚ

/-- The engine state declared in the source header: the four independently
growing eigenverb partitions _source_surface, _receiver_surface,
_source_bottom and _receiver_bottom. -/
structure eigenverb_bistatic where
  source_surface : List eigenverb
  receiver_surface : List eigenverb
  source_bottom : List eigenverb
  receiver_bottom : List eigenverb
  deriving DecidableEq

/-- A fresh engine: all four store partitions empty. -/
def freshEngine : eigenverb_bistatic := ⟨[], [], [], []⟩

/-- The exact rational value of the IEEE binary64 double nearest to pi divided
by two, i.e. the value the C++ code compares a grazing angle against when it
checks the bound of plus or minus half pi.  Written in lowest terms: the
denominator is two to the forty-ninth power. -/
def halfPi : ℚ := Rat.mk' 884279719003555 562949953421312

/-- Modelled from the spec: input validation of a collision notification
(section 7, missing with the method bodies).  A collision is valid when the
impact time is non-negative, the grazing angle lies within plus or minus half
pi, and the loss vector supplied by the attenuation collaborator for the
path length implied by time and sound speed matches the frequency grid in
length. -/
def validCollision (cfg : engine_config) (c : collision) : Bool :=
  decide (0 ≤ c.time) && decide (-halfPi ≤ c.grazing) && decide (c.grazing ≤ halfPi) &&
    ((cfg.atten c.frequencies (c.time * c.speed)).length == c.frequencies.length)

/-- Modelled from the spec: construction of an eigenverb record from an
accepted collision (section 4.1, missing with the method bodies): the
spreading collaborator supplies the two sigmas, the attenuation collaborator
supplies the loss vector for the path length implied by impact time and sound
speed, and all remaining fields are copied from the notification. -/
def mkEigenverb (cfg : engine_config) (c : collision) : eigenverb :=
  let sig := cfg.spreading c.grazing c.de c.az
  ⟨c.ID, c.de, c.az, c.time, c.grazing, c.speed, c.frequencies,
    cfg.atten c.frequencies (c.time * c.speed), c.position, c.ndirection,
    sig.1, sig.2⟩

/-- Tag naming one of the four store partitions declared in the header. -/
inductive partition_tag where
  | src_surf
  | rcv_surf
  | src_bot
  | rcv_bot
  deriving DecidableEq

/-- Read one store partition by tag. -/
def part (e : eigenverb_bistatic) : partition_tag → List eigenverb
  | .src_surf => e.source_surface
  | .rcv_surf => e.receiver_surface
  | .src_bot => e.source_bottom
  | .rcv_bot => e.receiver_bottom

/-- Append one eigenverb to the partition named by the tag. -/
def appendPart (e : eigenverb_bistatic) : partition_tag → eigenverb → eigenverb_bistatic
  | .src_surf, v => { e with source_surface := e.source_surface ++ [v] }
  | .rcv_surf, v => { e with receiver_surface := e.receiver_surface ++ [v] }
  | .src_bot, v => { e with source_bottom := e.source_bottom ++ [v] }
  | .rcv_bot, v => { e with receiver_bottom := e.receiver_bottom ++ [v] }

/-- Modelled from the spec: routing of a collision to a store partition
(section 4.1, missing with the method bodies).  An invalid collision routes
nowhere; a valid one routes by the boundary implied by the side (upper hits
the surface, lower hits the bottom) and by whether the origin ID matches the
configured source or receiver tag; any other ID (such as the unclassified
sentinel) is not tracked by the four declared partitions. -/
def route (cfg : engine_config) (c : collision) : Option partition_tag :=
  if validCollision cfg c then
    match c.side with
    | .upper =>
      if c.ID = cfg.sourceID then some .src_surf
      else if c.ID = cfg.receiverID then some .rcv_surf
      else none
    | .lower =>
      if c.ID = cfg.sourceID then some .src_bot
      else if c.ID = cfg.receiverID then some .rcv_bot
      else none
  else none

/-- Modelled from the spec: the shared body of the two notification entry
points (missing with the method bodies).  A collision that routes nowhere is
discarded: the call returns false and the store is untouched.  An accepted
collision returns true and appends exactly one freshly built eigenverb to the
selected partition. -/
def notifyCollision (cfg : engine_config) (e : eigenverb_bistatic) (c : collision) :
    Bool × eigenverb_bistatic :=
  match route cfg c with
  | none => (false, e)
  | some t => (true, appendPart e t (mkEigenverb cfg c))

/-- The notifyUpperCollision entry point as declared in the header, with the
origin ID parameter defaulting to 999; the body is modelled from the spec via
notifyCollision. -/
def notifyUpperCollision (cfg : engine_config) (e : eigenverb_bistatic)
    (de az : Nat) (time grazing speed : ℚ) (frequencies : List ℚ)
    (position ndirection : ℚ × ℚ × ℚ) (ID : Int := 999) :
    Bool × eigenverb_bistatic :=
  notifyCollision cfg e
    ⟨collision_side.upper, de, az, time, grazing, speed, frequencies, position, ndirection, ID⟩

/-- The notifyLowerCollision entry point as declared in the header, with the
origin ID parameter defaulting to 999; the body is modelled from the spec via
notifyCollision. -/
def notifyLowerCollision (cfg : engine_config) (e : eigenverb_bistatic)
    (de az : Nat) (time grazing speed : ℚ) (frequencies : List ℚ)
    (position ndirection : ℚ × ℚ × ℚ) (ID : Int := 999) :
    Bool × eigenverb_bistatic :=
  notifyCollision cfg e
    ⟨collision_side.lower, de, az, time, grazing, speed, frequencies, position, ndirection, ID⟩

/-- Deliver a finite sequence of collision notifications to the engine in
order, keeping only the evolving store state. -/
def runNotifications (cfg : engine_config) (e : eigenverb_bistatic)
    (cs : List collision) : eigenverb_bistatic :=
  cs.foldl (fun st c => (notifyCollision cfg st c).2) e

/-- Modelled from the spec: the small positive floor that the combined sigma
of a pair is clamped to so that the overlap integral never divides by zero
(section 4.3 edge cases; the combination algorithm is missing with the method
bodies). -/
def sigmaFloor : ℚ := 1 / 1000000

/-- Squared Euclidean distance between two impact positions. -/
def dist2 (p q : ℚ × ℚ × ℚ) : ℚ :=
  (p.1 - q.1) ^ 2 + (p.2.1 - q.2.1) ^ 2 + (p.2.2 - q.2.2) ^ 2

/-- Modelled from the spec: the overlap test of step 2 of the combination
algorithm — a pair contributes only if the spatial footprints, position plus
or minus sigma, intersect.  Embedded as the squared distance between the two
impact positions being at most the square of the sum of the two cross-range
sigmas. -/
def footprint_overlap (s r : eigenverb) : Bool :=
  decide (dist2 s.position r.position ≤ (s.sigma_range + r.sigma_range) ^ 2)

/-- Modelled from the spec: the combined sigma of a pair entering the overlap
integral, clamped from below by sigmaFloor so it can never reach zero. -/
def combinedSigma (s r : eigenverb) : ℚ :=
  max sigmaFloor
    (s.sigma_time ^ 2 + s.sigma_range ^ 2 + r.sigma_time ^ 2 + r.sigma_range ^ 2)

/-- Modelled from the spec: conversion of a total path time into a time-bin
index of the reverberation curve (step 4 of the combination algorithm). -/
def time_bin (cfg : engine_config) (t : ℚ) : Nat := (⌊t / cfg.bin_width⌋).toNat

/-- Per-frequency transmission loss of one eigenverb, in the linear power
domain, read at a frequency index. -/
def lossAt (v : eigenverb) (i : Nat) : ℚ := v.loss.getD i 0

/-- Modelled from the spec: the contribution of one (source, receiver) pair to
one (time bin, frequency) cell (steps 2 to 4 of the combination algorithm,
missing with the method bodies).  The pair contributes only when its
footprints overlap and its total path time falls into the bin; the
contribution is the Gaussian overlap integral — embedded as the reciprocal of
the clamped combined sigma — weighted multiplicatively in the linear power
domain by the two loss values and by the boundary scattering strength. -/
def pairTerm (cfg : engine_config) (b i : Nat) (s r : eigenverb) : ℚ :=
  if footprint_overlap s r && (time_bin cfg (s.time + r.time) == b) then
    (1 / combinedSigma s r) * lossAt s i * lossAt r i *
      cfg.scattering s.grazing r.grazing (cfg.frequencies.getD i 0)
  else 0

/-- Accumulated contribution of all pairs drawn from a source-side sequence
and a receiver-side sequence to one (time bin, frequency) cell; pairs landing
in the same cell sum in linear power. -/
def pairSum (cfg : engine_config) (b i : Nat) (S R : List eigenverb) : ℚ :=
  (S.map (fun s => (R.map (fun r => pairTerm cfg b i s r)).sum)).sum

/-- Modelled from the spec: one cell of the reverberation curve — each
boundary type is paired independently, so the cell is the surface-partition
pair sum plus the bottom-partition pair sum. -/
def curveCell (cfg : engine_config) (e : eigenverb_bistatic) (b i : Nat) : ℚ :=
  pairSum cfg b i e.source_surface e.receiver_surface +
    pairSum cfg b i e.source_bottom e.receiver_bottom

/-- Modelled from the spec: the reverberation curve produced by the pairing
and combination algorithm of section 4.3, which is missing with the method
bodies (the header marks compute_reverberation a stub).  The curve maps every
(time bin, frequency) cell of the configured shape to the accumulated linear
reverberated power. -/
def compute_reverberation_curve (cfg : engine_config) (e : eigenverb_bistatic) :
    List (List ℚ) :=
  (List.range cfg.num_bins).map fun b =>
    (List.range cfg.frequencies.length).map fun i => curveCell cfg e b i

/-- Modelled from the source header: compute_reverberation is declared with a
void return type and the class is documented as a stub, so the call delivers
no value to its caller. -/
def compute_reverberation (_e : eigenverb_bistatic) : Unit := ()

/-- Modelled from the spec: the two attenuation-model variants named by the
spec and the test — the constant-coefficient-per-Hz model and the Thorp
empirical curve — selected polymorphically; their implementations are not
under the verified sources (only the test exercising them is). -/
inductive attenuation_model where
  | constant (c : ℚ)
  | thorp
  deriving DecidableEq

/-- Modelled from the spec: the Thorp empirical absorption coefficient as a
function of frequency (frequency taken in Hz, converted to kHz), a rational
embedding of the standard Thorp curve; the repository implementation is not
under the verified sources. -/
def thorp_coeff (f : ℚ) : ℚ :=
  let f2 := (f / 1000) ^ 2
  (11 / 100) * f2 / (1 + f2) + 44 * f2 / (4100 + f2) + (275 / 1000000) * f2 + 3 / 1000

/-- Modelled from the spec and the test: the one-way transmission loss of one
variant at one position, frequency and distance.  The test documents the
constant model as attenuation equal to coefficient times frequency, applied
over the distance, so its loss is coefficient times frequency times distance;
the Thorp loss applies the per-kilometre coefficient over the distance. -/
def attenuation_model.loss1 : attenuation_model → (ℚ × ℚ × ℚ) → ℚ → ℚ → ℚ
  | .constant c, _, f, d => c * f * d
  | .thorp, _, f, d => thorp_coeff f * (d / 1000)

/-- Modelled from the spec: one invocation of the attenuation capability,
attenuation(positions, frequencies, distances), returning the loss matrix
indexed by position then frequency.  The model value is threaded through the
call explicitly so that the absence of shared mutable state is visible: the
call returns the model state it was given, unchanged. -/
def attenuation (m : attenuation_model) (points : List (ℚ × ℚ × ℚ))
    (freqs dists : List ℚ) : attenuation_model × List (List ℚ) :=
  (m, (points.zip dists).map fun pd => freqs.map fun f => m.loss1 pd.1 f pd.2)

/-- Partition state with the two bottom partitions emptied. -/
def clearBottom (e : eigenverb_bistatic) : eigenverb_bistatic :=
  ⟨e.source_surface, e.receiver_surface, [], []⟩

/-- Partition state with the two surface partitions emptied. -/
def clearSurface (e : eigenverb_bistatic) : eigenverb_bistatic :=
  ⟨[], [], e.source_bottom, e.receiver_bottom⟩

/-- Cell-wise sum of two reverberation curves of the same shape. -/
def curveAdd (a b : List (List ℚ)) : List (List ℚ) :=
  List.zipWith (fun ra rb => List.zipWith (fun x y => x + y) ra rb) a b

/-- The eigenverb a collision routed to a given partition contributes, if
any: the record built from the collision when the collision is valid and
routes to that partition, and nothing otherwise. -/
def routedVerb (cfg : engine_config) (t : partition_tag) (c : collision) :
    Option eigenverb :=
  if route cfg c = some t then some (mkEigenverb cfg c) else none

/-- A concrete engine configuration used by the closed witnesses: source rays
are tagged 1, receiver rays 2, four one-second bins, two frequencies, a
linear attenuation collaborator, unit sigmas and unit scattering strength. -/
def cfg0 : engine_config :=
  ⟨1, 2, 4, 1, [10, 100], fun fs d => fs.map fun f => f * d / 1000000,
    fun _ _ _ => ⟨1, 1⟩, fun _ _ _ => 1⟩

/-- A concrete valid upper collision tagged with the source ID of cfg0. -/
def ev1 : collision :=
  ⟨collision_side.upper, 0, 0, 1, 0, 1500, [10, 100], ⟨0, 0, 0⟩, ⟨0, 0, 1⟩, 1⟩

/-- A concrete valid lower collision tagged with the receiver ID of cfg0. -/
def ev2 : collision :=
  ⟨collision_side.lower, 0, 0, 1, 0, 1500, [10, 100], ⟨0, 0, 0⟩, ⟨0, 0, -1⟩, 2⟩

/-- A concrete upper collision that is valid but carries the unclassified
sentinel ID 999, which matches neither tracked origin tag of cfg0. -/
def ev999 : collision :=
  ⟨collision_side.upper, 0, 0, 1, 0, 1500, [10, 100], ⟨0, 0, 0⟩, ⟨0, 0, 1⟩, 999⟩

/-- A concrete eigenverb with zero sigmas located at the origin. -/
def verb0 : eigenverb :=
  ⟨1, 0, 0, 1, 0, 1500, [10, 100], [1, 1], ⟨0, 0, 0⟩, ⟨0, 0, 1⟩, 0, 0⟩

/-- A second concrete eigenverb with zero sigmas at the same position. -/
def verb1 : eigenverb :=
  ⟨2, 0, 0, 1, 0, 1500, [10, 100], [1, 1], ⟨0, 0, 0⟩, ⟨0, 0, -1⟩, 0, 0⟩

/-- A concrete observer position used by the attenuation theorems. -/
def point0 : ℚ × ℚ × ℚ := ⟨0, 0, 0⟩

/-- Validation spelled out: the boolean check accepts exactly the collisions
satisfying the three range conditions and the length agreement. -/
lemma validCollision_iff (cfg : engine_config) (c : collision) :
    validCollision cfg c = true ↔
      0 ≤ c.time ∧ -halfPi ≤ c.grazing ∧ c.grazing ≤ halfPi ∧
        (cfg.atten c.frequencies (c.time * c.speed)).length = c.frequencies.length := by
  simp [validCollision, and_assoc]

/-- Reading a partition after appending to a possibly different partition. -/
lemma part_appendPart (e : eigenverb_bistatic) (t u : partition_tag) (v : eigenverb) :
    part (appendPart e t v) u = if t = u then part e u ++ [v] else part e u := by
  cases t <;> cases u <;> simp [part, appendPart]

/-- One notification appends the routed eigenverb, if any, to each partition. -/
lemma part_notify (cfg : engine_config) (e : eigenverb_bistatic) (c : collision)
    (t : partition_tag) :
    part (notifyCollision cfg e c).2 t = part e t ++ (routedVerb cfg t c).toList := by
  unfold notifyCollision routedVerb
  cases h : route cfg c with
  | none => simp [h]
  | some u =>
    by_cases hu : u = t
    · subst hu
      simp [h, part_appendPart]
    · simp [h, part_appendPart, hu]

/-- Running a sequence of notifications appends to each partition exactly the
eigenverbs of the collisions routed to it, in delivery order. -/
lemma run_part (cfg : engine_config) (t : partition_tag) :
    ∀ (cs : List collision) (e : eigenverb_bistatic),
      part (runNotifications cfg e cs) t
        = part e t ++ cs.filterMap (routedVerb cfg t) := by
  intro cs
  induction cs with
  | nil => intro e; simp [runNotifications]
  | cons c cs ih =>
    intro e
    have hstep : runNotifications cfg e (c :: cs)
        = runNotifications cfg (notifyCollision cfg e c).2 cs := by
      simp [runNotifications]
    rw [hstep, ih, part_notify]
    cases hfc : routedVerb cfg t c <;> simp [List.filterMap_cons, hfc]

/-- The pair sum over two sequences is invariant under permuting either. -/
lemma pairSum_perm (cfg : engine_config) (b i : Nat) {S S' R R' : List eigenverb}
    (hS : List.Perm S S') (hR : List.Perm R R') :
    pairSum cfg b i S R = pairSum cfg b i S' R' := by
  unfold pairSum
  have h1 : (fun s => ((R.map fun r => pairTerm cfg b i s r)).sum)
      = fun s => ((R'.map fun r => pairTerm cfg b i s r)).sum :=
    funext fun s => (hR.map _).sum_eq
  rw [h1]
  exact (hS.map _).sum_eq

/-- Zipping two maps over one list combines them pointwise. -/
lemma zipWith_map_same {α β γ : Type} (f : β → β → γ) (g h : α → β) (l : List α) :
    List.zipWith f (l.map g) (l.map h) = l.map fun x => f (g x) (h x) := by
  induction l with
  | nil => rfl
  | cons a l ih => simp [ih]

/-- Mapping a constant over a range is a replicate. -/
lemma map_const_range {α : Type} (n : Nat) (x : α) :
    (List.range n).map (fun _ => x) = List.replicate n x := by
  induction n with
  | zero => rfl
  | succ k ih =>
    rw [List.range_succ, List.map_append, ih, List.replicate_succ']
    rfl

/-- Claim C1: delivering any permutation of a finite sequence of collision
notifications to a fresh engine and then computing the reverberation once
yields an identical reverberation curve — the engine defers all pairing to
the combination phase, so the curve depends only on the accumulated sets, not
on notification order. -/
theorem order_independent_curve (cfg : engine_config) (cs cs' : List collision)
    (h : List.Perm cs cs') :
    compute_reverberation_curve cfg (runNotifications cfg freshEngine cs)
      = compute_reverberation_curve cfg (runNotifications cfg freshEngine cs') := by
  have hp : ∀ t, List.Perm (part (runNotifications cfg freshEngine cs) t)
      (part (runNotifications cfg freshEngine cs') t) := by
    intro t
    rw [run_part, run_part]
    exact List.Perm.append_left _ (h.filterMap _)
  have h1 := hp partition_tag.src_surf
  have h2 := hp partition_tag.rcv_surf
  have h3 := hp partition_tag.src_bot
  have h4 := hp partition_tag.rcv_bot
  simp only [part] at h1 h2 h3 h4
  have hcell : ∀ b i, curveCell cfg (runNotifications cfg freshEngine cs) b i
      = curveCell cfg (runNotifications cfg freshEngine cs') b i := by
    intro b i
    unfold curveCell
    rw [pairSum_perm cfg b i h1 h2, pairSum_perm cfg b i h3 h4]
  unfold compute_reverberation_curve
  simp only [hcell]

/-- Claim C1 witness: swapping two concrete notifications leaves the curve of
the concrete configuration unchanged. -/
theorem order_independent_curve_witness :
    compute_reverberation_curve cfg0 (runNotifications cfg0 freshEngine [ev1, ev2])
      = compute_reverberation_curve cfg0 (runNotifications cfg0 freshEngine [ev2, ev1]) :=
  order_independent_curve cfg0 [ev1, ev2] [ev2, ev1] (List.Perm.swap ev2 ev1 [])

/-- Claim C2: as declared in the source header, compute_reverberation has a
void return type — evaluated at a concrete engine the call yields the unit
value, so no reverberation curve is returned to the caller, against the
spec's statement that the caller receives and owns the curve. -/
theorem compute_reverberation_void_stub : compute_reverberation freshEngine = () := rfl

/-- Claim C3: a malformed collision — negative impact time, grazing angle
outside the closed interval of plus or minus half pi, or a loss vector whose
length mismatches the frequency grid — makes both notification entry points
return false and leave every store partition untouched. -/
theorem malformed_collision_rejected (cfg : engine_config) (e : eigenverb_bistatic)
    (de az : Nat) (time grazing speed : ℚ) (frequencies : List ℚ)
    (position ndirection : ℚ × ℚ × ℚ) (ID : Int)
    (h : time < 0 ∨ grazing < -halfPi ∨ halfPi < grazing ∨
      (cfg.atten frequencies (time * speed)).length ≠ frequencies.length) :
    notifyUpperCollision cfg e de az time grazing speed frequencies position ndirection ID
        = (false, e) ∧
      notifyLowerCollision cfg e de az time grazing speed frequencies position ndirection ID
        = (false, e) := by
  have hv : ∀ side : collision_side,
      validCollision cfg
        ⟨side, de, az, time, grazing, speed, frequencies, position, ndirection, ID⟩
        = false := by
    intro side
    rw [Bool.eq_false_iff]
    intro hvc
    rw [validCollision_iff] at hvc
    obtain ⟨ht, hg1, hg2, hl⟩ := hvc
    rcases h with h | h | h | h
    · exact absurd ht (not_le.mpr h)
    · exact absurd hg1 (not_le.mpr h)
    · exact absurd hg2 (not_le.mpr h)
    · exact h hl
  constructor <;>
    simp [notifyUpperCollision, notifyLowerCollision, notifyCollision, route, hv]

/-- Claim C3 witness: a concrete collision with negative impact time is
rejected by both entry points and leaves the fresh engine unchanged. -/
theorem malformed_collision_rejected_witness :
    notifyUpperCollision cfg0 freshEngine 0 0 (-1) 0 1500 [10, 100] ⟨0, 0, 0⟩ ⟨0, 0, 1⟩ 1
        = (false, freshEngine) ∧
      notifyLowerCollision cfg0 freshEngine 0 0 (-1) 0 1500 [10, 100] ⟨0, 0, 0⟩ ⟨0, 0, 1⟩ 1
        = (false, freshEngine) :=
  malformed_collision_rejected cfg0 freshEngine 0 0 (-1) 0 1500 [10, 100]
    ⟨0, 0, 0⟩ ⟨0, 0, 1⟩ 1 (Or.inl (by decide))

/-- Claim C4 counterexample: the claim as frozen quantifies over every pair
of valid collisions with the same (de, az) but different origin IDs; the
concrete pair of the valid sentinel-tagged upper collision ev999 and the
valid receiver-tagged lower collision ev2 satisfies that premise, yet the
first call is rejected (its ID matches neither tracked origin tag) and after
both calls only one record exists in one partition, not two distinct records
in two partitions. -/
theorem distinct_partitions_counterexample :
    validCollision cfg0 ev999 = true ∧ validCollision cfg0 ev2 = true ∧
      ev999.side = collision_side.upper ∧ ev2.side = collision_side.lower ∧
      ev999.de = ev2.de ∧ ev999.az = ev2.az ∧ ev999.ID ≠ ev2.ID ∧
      (notifyCollision cfg0 freshEngine ev999).1 = false ∧
      (notifyCollision cfg0 (notifyCollision cfg0 freshEngine ev999).2 ev2).2.source_surface
        = [] ∧
      (notifyCollision cfg0 (notifyCollision cfg0 freshEngine ev999).2 ev2).2.receiver_surface
        = [] ∧
      (notifyCollision cfg0 (notifyCollision cfg0 freshEngine ev999).2 ev2).2.source_bottom
        = [] ∧
      (notifyCollision cfg0 (notifyCollision cfg0 freshEngine ev999).2 ev2).2.receiver_bottom
        = [mkEigenverb cfg0 ev2] := by
  have hr9 : route cfg0 ev999 = none := by decide
  have hr2 : route cfg0 ev2 = some partition_tag.rcv_bot := by decide
  refine ⟨by decide, by decide, rfl, rfl, rfl, rfl, by decide, ?_, ?_, ?_, ?_, ?_⟩ <;>
    simp [notifyCollision, hr9, hr2, appendPart, freshEngine]

/-- Claim C4 as amended: two valid collisions with the same (de, az) indices
whose different origin IDs are the engine's two tracked origin tags — one the
source ID and the other the receiver ID, in either order — delivered as an
upper collision then a lower collision, are both accepted and produce two
distinct eigenverb records appended to two different store partitions, each
independently retrievable, while the other two partitions stay empty. -/
theorem distinct_partitions_no_cross (cfg : engine_config) (c1 c2 : collision)
    (h1 : validCollision cfg c1 = true) (h2 : validCollision cfg c2 = true)
    (hs1 : c1.side = collision_side.upper) (hs2 : c2.side = collision_side.lower)
    (_hde : c1.de = c2.de) (_haz : c1.az = c2.az)
    (hne : cfg.sourceID ≠ cfg.receiverID)
    (hid : (c1.ID = cfg.sourceID ∧ c2.ID = cfg.receiverID) ∨
      (c1.ID = cfg.receiverID ∧ c2.ID = cfg.sourceID)) :
    (notifyCollision cfg freshEngine c1).1 = true ∧
      (notifyCollision cfg (notifyCollision cfg freshEngine c1).2 c2).1 = true ∧
      (∃ t1 t2 : partition_tag, t1 ≠ t2 ∧
        part (notifyCollision cfg (notifyCollision cfg freshEngine c1).2 c2).2 t1
          = [mkEigenverb cfg c1] ∧
        part (notifyCollision cfg (notifyCollision cfg freshEngine c1).2 c2).2 t2
          = [mkEigenverb cfg c2] ∧
        ∀ u : partition_tag, u ≠ t1 → u ≠ t2 →
          part (notifyCollision cfg (notifyCollision cfg freshEngine c1).2 c2).2 u = []) ∧
      mkEigenverb cfg c1 ≠ mkEigenverb cfg c2 := by
  have hdistinct : c1.ID ≠ c2.ID → mkEigenverb cfg c1 ≠ mkEigenverb cfg c2 := by
    intro hids heq
    have hpr := congrArg eigenverb.ID heq
    simp [mkEigenverb] at hpr
    exact hids hpr
  rcases hid with ⟨hid1, hid2⟩ | ⟨hid1, hid2⟩
  · have hr1 : route cfg c1 = some partition_tag.src_surf := by
      simp [route, h1, hs1, hid1]
    have hr2 : route cfg c2 = some partition_tag.rcv_bot := by
      simp [route, h2, hs2, hid2, Ne.symm hne]
    refine ⟨by simp [notifyCollision, hr1], by simp [notifyCollision, hr1, hr2],
      ⟨partition_tag.src_surf, partition_tag.rcv_bot, by decide,
        by simp [notifyCollision, hr1, hr2, part, appendPart, freshEngine],
        by simp [notifyCollision, hr1, hr2, part, appendPart, freshEngine], ?_⟩, ?_⟩
    · intro u hu1 hu2
      cases u
      · exact absurd rfl hu1
      · simp [notifyCollision, hr1, hr2, part, appendPart, freshEngine]
      · simp [notifyCollision, hr1, hr2, part, appendPart, freshEngine]
      · exact absurd rfl hu2
    · refine hdistinct ?_
      rw [hid1, hid2]
      exact hne
  · have hr1 : route cfg c1 = some partition_tag.rcv_surf := by
      simp [route, h1, hs1, hid1, Ne.symm hne]
    have hr2 : route cfg c2 = some partition_tag.src_bot := by
      simp [route, h2, hs2, hid2]
    refine ⟨by simp [notifyCollision, hr1], by simp [notifyCollision, hr1, hr2],
      ⟨partition_tag.rcv_surf, partition_tag.src_bot, by decide,
        by simp [notifyCollision, hr1, hr2, part, appendPart, freshEngine],
        by simp [notifyCollision, hr1, hr2, part, appendPart, freshEngine], ?_⟩, ?_⟩
    · intro u hu1 hu2
      cases u
      · simp [notifyCollision, hr1, hr2, part, appendPart, freshEngine]
      · exact absurd rfl hu1
      · exact absurd rfl hu2
      · simp [notifyCollision, hr1, hr2, part, appendPart, freshEngine]
    · refine hdistinct ?_
      rw [hid1, hid2]
      exact Ne.symm hne

/-- Claim C4 witness: the concrete source-tagged upper collision followed by
the receiver-tagged lower collision is accepted twice and populates exactly
the source-surface and receiver-bottom partitions of the concrete engine
with two distinct, independently retrievable records. -/
theorem distinct_partitions_no_cross_witness :
    validCollision cfg0 ev1 = true ∧ validCollision cfg0 ev2 = true ∧
      ((notifyCollision cfg0 freshEngine ev1).1 = true ∧
        (notifyCollision cfg0 (notifyCollision cfg0 freshEngine ev1).2 ev2).1 = true ∧
        (∃ t1 t2 : partition_tag, t1 ≠ t2 ∧
          part (notifyCollision cfg0 (notifyCollision cfg0 freshEngine ev1).2 ev2).2 t1
            = [mkEigenverb cfg0 ev1] ∧
          part (notifyCollision cfg0 (notifyCollision cfg0 freshEngine ev1).2 ev2).2 t2
            = [mkEigenverb cfg0 ev2] ∧
          ∀ u : partition_tag, u ≠ t1 → u ≠ t2 →
            part (notifyCollision cfg0 (notifyCollision cfg0 freshEngine ev1).2 ev2).2 u
              = []) ∧
        mkEigenverb cfg0 ev1 ≠ mkEigenverb cfg0 ev2) :=
  ⟨by decide, by decide,
    distinct_partitions_no_cross cfg0 ev1 ev2 (by decide) (by decide) rfl rfl rfl rfl
      (by decide) (Or.inl ⟨rfl, rfl⟩)⟩

/-- Claim C5: pairing is performed per boundary type independently — the
curve splits into the curve of the engine with its bottom partitions cleared
plus the curve of the engine with its surface partitions cleared, so a
bottom-recorded eigenverb never contributes to a pair with a surface-recorded
one, for every store content. -/
theorem boundary_isolated_curve (cfg : engine_config) (e : eigenverb_bistatic) :
    compute_reverberation_curve cfg e
      = curveAdd (compute_reverberation_curve cfg (clearBottom e))
          (compute_reverberation_curve cfg (clearSurface e)) := by
  have hcell : ∀ b i, curveCell cfg e b i
      = curveCell cfg (clearBottom e) b i + curveCell cfg (clearSurface e) b i := by
    intro b i
    simp [curveCell, clearBottom, clearSurface, pairSum]
  unfold compute_reverberation_curve curveAdd
  simp only [zipWith_map_same]
  simp only [hcell]

/-- Claim C6: computing the reverberation of an engine whose store is empty
is not an error and yields the all-zero curve of the configured time-bin and
frequency shape. -/
theorem empty_store_all_zero (cfg : engine_config) :
    compute_reverberation_curve cfg freshEngine
      = List.replicate cfg.num_bins (List.replicate cfg.frequencies.length 0) := by
  have hc : ∀ b i, curveCell cfg freshEngine b i = 0 := by
    intro b i
    simp [curveCell, pairSum, freshEngine]
  unfold compute_reverberation_curve
  simp only [hc]
  simp only [map_const_range]

/-- Claim C7: for every pair accepted by the overlap test, the combined sigma
entering the overlap integral is clamped to the small positive floor, hence
is positive and never zero, so the overlap integral never divides by zero and
every curve cell stays a finite rational. -/
theorem overlap_sigma_clamped (s r : eigenverb) (_h : footprint_overlap s r = true) :
    sigmaFloor ≤ combinedSigma s r ∧ 0 < combinedSigma s r ∧ combinedSigma s r ≠ 0 := by
  have h1 : sigmaFloor ≤ combinedSigma s r := le_max_left _ _
  have h0 : (0 : ℚ) < sigmaFloor := by norm_num [sigmaFloor]
  exact ⟨h1, lt_of_lt_of_le h0 h1, ne_of_gt (lt_of_lt_of_le h0 h1)⟩

/-- Claim C7 witness: two concrete zero-sigma eigenverbs at the same position
pass the overlap test and their combined sigma is clamped up to the floor. -/
theorem overlap_sigma_clamped_witness :
    footprint_overlap verb0 verb1 = true ∧
      (sigmaFloor ≤ combinedSigma verb0 verb1 ∧ 0 < combinedSigma verb0 verb1 ∧
        combinedSigma verb0 verb1 ≠ 0) :=
  ⟨by simp [footprint_overlap, dist2, verb0, verb1],
    overlap_sigma_clamped verb0 verb1 (by simp [footprint_overlap, dist2, verb0, verb1])⟩

/-- Claim C8: the origin ID parameter of both notification entry points
defaults to the sentinel value 999 when the caller does not supply one. -/
theorem originID_default_sentinel (cfg : engine_config) (e : eigenverb_bistatic)
    (de az : Nat) (time grazing speed : ℚ) (frequencies : List ℚ)
    (position ndirection : ℚ × ℚ × ℚ) :
    notifyUpperCollision cfg e de az time grazing speed frequencies position ndirection
        = notifyUpperCollision cfg e de az time grazing speed frequencies position
            ndirection 999 ∧
      notifyLowerCollision cfg e de az time grazing speed frequencies position ndirection
        = notifyLowerCollision cfg e de az time grazing speed frequencies position
            ndirection 999 :=
  ⟨rfl, rfl⟩

/-- Claim C9: the attenuation capability is a pure, deterministic function of
its inputs with no shared mutable state — an invocation returns the model
state it was given unchanged, and a second invocation on the returned state
with identical inputs returns an identical loss matrix. -/
theorem attenuation_model_pure (m : attenuation_model) (points : List (ℚ × ℚ × ℚ))
    (freqs dists : List ℚ) :
    (attenuation m points freqs dists).1 = m ∧
      (attenuation (attenuation m points freqs dists).1 points freqs dists).2
        = (attenuation m points freqs dists).2 :=
  ⟨rfl, rfl⟩

/-- Claim C10: the constant-coefficient attenuation model with coefficient c
returns, for every position, frequency and distance, the loss c times
frequency times distance; in particular, at coefficient one over a million,
the seven-decade frequency grid of the test and distance one thousand produce
the losses starting at one hundredth and scaling by ten per decade, and at a
fixed distance the loss scales by ten whenever the frequency scales by ten. -/
theorem attenuation_constant_linear :
    (∀ (c f d : ℚ) (p : ℚ × ℚ × ℚ),
        (attenuation_model.constant c).loss1 p f d = c * f * d) ∧
      (attenuation (attenuation_model.constant (1 / 1000000)) [point0]
            [10, 100, 1000, 10000, 100000, 1000000, 10000000] [1000]).2
        = [[1 / 100, 1 / 10, 1, 10, 100, 1000, 10000]] ∧
      (∀ (c f d : ℚ) (p : ℚ × ℚ × ℚ),
        (attenuation_model.constant c).loss1 p (10 * f) d
          = 10 * (attenuation_model.constant c).loss1 p f d) := by
  refine ⟨fun c f d p => rfl, ?_, fun c f d p => by simp [attenuation_model.loss1]; ring⟩
  norm_num [attenuation, attenuation_model.loss1, point0]
